import Mathlib

/-! # timeMachine: the connection manager

A shallow embedding of `process/connectionmanager/connection_manager.go`.

The manager owns a table `tmcMap` from node identifiers to connection entries.
Everything the manager touches but does not own lives in `Grpc`: the
connectivity state of every channel (`ClientConn.GetState`) and the record of
the calls made to `grpc.DialContext`.  An operation takes a `World` (manager
plus grpc runtime) and returns its Go result together with the `World` it
leaves behind.

The calls are embedded as they run one at a time: `cm.mu.Lock`/`RLock` with the
deferred unlock bracket the whole body of every method and have no effect of
their own in a sequential run.  The `zap` logger is write-only and is left out.
-/

namespace TimeMachine

/-! ## Data model -/

/-- Modelled from the spec: the declaration of `dht.NodeID` is not in `dht.go`;
the spec describes it as an opaque string, and `Add` converts a `string` to it
with `dht.NodeID(serverID)`. -/
abbrev NodeID := String

/-- The Go `error` values that occur here, identified by their message; a nil
error is `none : Option Error`. -/
abbrev Error := String

/-- The value of `ErrNodeNotPresent = errors.New("node not present")`. -/
def ErrNodeNotPresent : Error := "node not present"

/-- The enumeration `connectivity.State` of grpc. -/
inductive ConnState where
  | Idle
  | Connecting
  | Ready
  | TransientFailure
  | Shutdown
  deriving DecidableEq

/-- A `*grpc.ClientConn`: the identity of a channel object. -/
abbrev ClientConn := Nat

/-- Modelled from the spec: `network.CreateJobStoreClient` and the client type it
returns are not under src; the spec says the entry caches a typed client built on
top of the channel.  The client is represented by the two arguments it is built
from. -/
structure JobStoreClient where
  conn : ClientConn
  rpcTimeout : Int
  deriving DecidableEq

/-- Modelled from the spec: `network.CreateJobStoreClient(conn, rpcTimeout)`,
the client built from a channel and the manager's timeout. -/
def CreateJobStoreClient (conn : ClientConn) (rpcTimeout : Int) : JobStoreClient :=
  { conn := conn, rpcTimeout := rpcTimeout }

/-- The struct `timeMachineConnection`: address, channel and cached client. -/
structure timeMachineConnection where
  address : String
  grpcConn : ClientConn
  jobStore : JobStoreClient
  deriving DecidableEq

/-- The Go map `map[dht.NodeID]*timeMachineConnection`, kept as an association
list; `mapGet` reads it and `mapSet` assigns to it. -/
abbrev TmcMap := List (NodeID × timeMachineConnection)

/-- The map read `m[k]`: `none` is Go's `ok == false` (and the nil pointer that
comes with it). -/
def mapGet : TmcMap → NodeID → Option timeMachineConnection
  | [], _ => none
  | (k', v) :: t, k => if k' = k then some v else mapGet t k

/-- The map assignment `m[k] = v`: overwrite the entry of `k` if there is one,
add one otherwise. -/
def mapSet : TmcMap → NodeID → timeMachineConnection → TmcMap
  | [], k, v => [(k, v)]
  | (k', v') :: t, k, v => if k' = k then (k, v) :: t else (k', v') :: mapSet t k v

/-- The struct `ConnectionManager` (fields `tmcMap` and `rpcTimeout`; `mu` and
`log` carry no data of the table). -/
structure ConnectionManager where
  tmcMap : TmcMap
  rpcTimeout : Int
  deriving DecidableEq

/-- What one call of `grpc.DialContext` returns: `(conn, nil)` or `(nil, err)`. -/
inductive DialResult where
  | ok (conn : ClientConn)
  | err (e : Error)
  deriving DecidableEq

/-- The behaviour of `grpc.DialContext` at the time of one call, as a function
of the target address.  A dial that runs into the ten second timeout of
`connect` is a dial that returns an error. -/
abbrev Dialer := String → DialResult

/-- One call of `grpc.DialContext` made by `connect`. -/
structure DialEvent where
  nodeID : NodeID
  addr : String
  result : DialResult
  deriving DecidableEq

/-- The grpc runtime as the manager sees it: `state c` is what
`c.GetState()` returns now, `dials` lists the dials made so far, latest first. -/
structure Grpc where
  state : ClientConn → ConnState
  dials : List DialEvent

/-- The method `ClientConn.Close` of grpc: the channel enters `Shutdown`. -/
def Grpc.closeConn (g : Grpc) (c : ClientConn) : Grpc :=
  { g with state := Function.update g.state c ConnState.Shutdown }

/-- A manager together with the grpc runtime it works on. -/
structure World where
  cm : ConnectionManager
  grpc : Grpc

/-! ## Operations -/

/-- The constructor `CreateConnectionManager(log, rpcTimeout)`: an empty table. -/
def CreateConnectionManager (rpcTimeout : Int) : ConnectionManager :=
  { tmcMap := [], rpcTimeout := rpcTimeout }

/-- The method `connect(nodeID, addr)`: dial `addr`; on an error return it, on
success store the entry under `nodeID`. -/
def connect (dial : Dialer) (s : World) (nodeID : NodeID) (addr : String) :
    Option Error × World :=
  let g : Grpc :=
    { s.grpc with dials := { nodeID := nodeID, addr := addr, result := dial addr } :: s.grpc.dials }
  match dial addr with
  | DialResult.err e => (some e, { cm := s.cm, grpc := g })
  | DialResult.ok conn =>
    (none,
      { cm := { s.cm with
                tmcMap := mapSet s.cm.tmcMap nodeID
                  { address := addr, grpcConn := conn,
                    jobStore := CreateJobStoreClient conn s.cm.rpcTimeout } },
        grpc := g })

/-- The method `Add(serverID, address)`. -/
def Add (dial : Dialer) (s : World) (serverID : String) (address : String) :
    Option Error × World :=
  let nodeID : NodeID := serverID
  match mapGet s.cm.tmcMap nodeID with
  | some _ => (none, s)
  | none => connect dial s nodeID address

/-- The method `GetJobStore(nodeID)`: the client (nil is `none`) and the error. -/
def GetJobStore (s : World) (nodeID : NodeID) :
    (Option JobStoreClient × Option Error) × World :=
  match mapGet s.cm.tmcMap nodeID with
  | some tmc => ((some tmc.jobStore, none), s)
  | none => ((none, some ErrNodeNotPresent), s)

/-- The method `CheckHealth(nodeId)`. -/
def CheckHealth (s : World) (nodeId : NodeID) : Bool × World :=
  match mapGet s.cm.tmcMap nodeId with
  | none => (false, s)
  | some tmc =>
    match s.grpc.state tmc.grpcConn with
    | ConnState.Ready => (true, s)
    | ConnState.Idle => (true, s)
    | _ => (false, s)

/-- The method `Close()`: the loop over `tmcMap` calls `grpcConn.Close()` on
every entry. -/
def Close (s : World) : World :=
  { cm := s.cm
    grpc := s.cm.tmcMap.foldl (fun g p => g.closeConn p.2.grpcConn) s.grpc }

/-! ## Runs of calls -/

/-- A call made on the manager by a client; an `add` carries the behaviour of
the dialer at the time of the call. -/
inductive Op where
  | add (serverID : String) (address : String) (dial : Dialer)
  | getJobStore (nodeID : NodeID)
  | checkHealth (nodeID : NodeID)

/-- The world after one call. -/
def step (s : World) : Op → World
  | Op.add serverID address dial => (Add dial s serverID address).2
  | Op.getJobStore nodeID => (GetJobStore s nodeID).2
  | Op.checkHealth nodeID => (CheckHealth s nodeID).2

/-- The world after a sequence of calls, first call first. -/
def run (s : World) (ops : List Op) : World :=
  ops.foldl step s

/-- A manager just returned by `CreateConnectionManager`, with no dial made
yet and channel states `st`. -/
def fresh (rpcTimeout : Int) (st : ClientConn → ConnState) : World :=
  { cm := CreateConnectionManager rpcTimeout, grpc := { state := st, dials := [] } }

/-- Whether a dial event is a successful dial for node `n`. -/
def DialEvent.succeededFor (n : NodeID) (e : DialEvent) : Bool :=
  match e.result with
  | DialResult.ok _ => decide (e.nodeID = n)
  | DialResult.err _ => false

/-- The number of successful dials for node `n` in a dial record. -/
def successfulDials (n : NodeID) (log : List DialEvent) : Nat :=
  (log.filter (DialEvent.succeededFor n)).length

/-- The invariant of a run: a node has at most one successful dial on record,
and none at all while it has no entry. -/
def DialInv (s : World) : Prop :=
  ∀ n : NodeID, successfulDials n s.grpc.dials ≤ 1 ∧
    (mapGet s.cm.tmcMap n = none → successfulDials n s.grpc.dials = 0)

/-! ## A concrete cluster, for the examples -/

/-- A dialer that reaches two addresses and is refused everywhere else. -/
def exampleDial : Dialer := fun addr =>
  if addr = "addr:1" then DialResult.ok 1
  else if addr = "addr:2" then DialResult.ok 2
  else DialResult.err "connection refused"

/-- A dialer that would reach every address, on a channel of its own. -/
def otherDial : Dialer := fun _ => DialResult.ok 7

/-- The channel states of the examples: channel 1 is ready, channel 2 is
connecting, every other channel is idle. -/
def exampleStates : ClientConn → ConnState := fun c =>
  if c = 1 then ConnState.Ready else if c = 2 then ConnState.Connecting else ConnState.Idle

/-- The manager after `CreateConnectionManager(log, 5)`, `Add("n1", "addr:1")`
and `Add("n2", "addr:2")`. -/
def exampleWorld : World :=
  (Add exampleDial (Add exampleDial (fresh 5 exampleStates) "n1" "addr:1").2 "n2" "addr:2").2

/-- The calls that lead to `exampleWorld`. -/
def exampleOps : List Op :=
  [Op.add "n1" "addr:1" exampleDial, Op.add "n2" "addr:2" exampleDial]

/-- More calls: a second `Add` for `n1` with a dialer that would succeed, a
failing `Add` for `n3` and two queries. -/
def exampleOps' : List Op :=
  [Op.add "n1" "addr:9" otherDial, Op.checkHealth "n1", Op.add "n3" "addr:3" exampleDial,
   Op.getJobStore "n3"]

/-! ## The association list -/

theorem mapGet_mapSet_same (m : TmcMap) (k : NodeID) (v : timeMachineConnection) :
    mapGet (mapSet m k v) k = some v := by
  induction m with
  | nil => simp [mapSet, mapGet]
  | cons p t ih =>
    obtain ⟨k', v'⟩ := p
    by_cases h : k' = k
    · simp [mapSet, mapGet, h]
    · simp [mapSet, mapGet, h, ih]

theorem mapGet_mapSet_other (m : TmcMap) (k k' : NodeID) (v : timeMachineConnection)
    (hne : k' ≠ k) : mapGet (mapSet m k v) k' = mapGet m k' := by
  induction m with
  | nil =>
    have : ¬ k = k' := fun h => hne h.symm
    simp [mapSet, mapGet, this]
  | cons p t ih =>
    obtain ⟨k₀, v₀⟩ := p
    by_cases h : k₀ = k
    · subst h
      have : ¬ k₀ = k' := fun h => hne h.symm
      simp [mapSet, mapGet, this]
    · by_cases h' : k₀ = k'
      · subst h'
        simp [mapSet, mapGet, h]
      · simp [mapSet, mapGet, h, h', ih]

theorem mapGet_mem (m : TmcMap) (k : NodeID) (v : timeMachineConnection)
    (h : mapGet m k = some v) : (k, v) ∈ m := by
  induction m with
  | nil => simp [mapGet] at h
  | cons p t ih =>
    obtain ⟨k', v'⟩ := p
    by_cases hk : k' = k
    · simp [mapGet, hk] at h
      simp [hk, h]
    · simp [mapGet, hk] at h
      simp [ih h]

/-! ## Frame lemmas of the operations -/

theorem GetJobStore_world (s : World) (nodeID : NodeID) : (GetJobStore s nodeID).2 = s := by
  unfold GetJobStore
  cases mapGet s.cm.tmcMap nodeID <;> rfl

theorem CheckHealth_world (s : World) (nodeId : NodeID) : (CheckHealth s nodeId).2 = s := by
  unfold CheckHealth
  cases mapGet s.cm.tmcMap nodeId with
  | none => rfl
  | some tmc => dsimp only; cases s.grpc.state tmc.grpcConn <;> rfl

theorem Add_of_registered (dial : Dialer) (s : World) (serverID address : String)
    (tmc : timeMachineConnection) (h : mapGet s.cm.tmcMap serverID = some tmc) :
    Add dial s serverID address = (none, s) := by
  simp [Add, h]

theorem Add_of_err (dial : Dialer) (s : World) (serverID address : String) (e : Error)
    (habs : mapGet s.cm.tmcMap serverID = none) (hd : dial address = DialResult.err e) :
    Add dial s serverID address =
      (some e, { cm := s.cm,
                 grpc := { s.grpc with
                   dials := { nodeID := serverID, addr := address,
                              result := DialResult.err e } :: s.grpc.dials } }) := by
  simp [Add, habs, connect, hd]

theorem Add_of_ok (dial : Dialer) (s : World) (serverID address : String) (c : ClientConn)
    (habs : mapGet s.cm.tmcMap serverID = none) (hd : dial address = DialResult.ok c) :
    Add dial s serverID address =
      (none,
        { cm := { s.cm with
                  tmcMap := mapSet s.cm.tmcMap serverID
                    { address := address, grpcConn := c,
                      jobStore := CreateJobStoreClient c s.cm.rpcTimeout } },
          grpc := { s.grpc with
            dials := { nodeID := serverID, addr := address,
                       result := DialResult.ok c } :: s.grpc.dials } }) := by
  simp [Add, habs, connect, hd]

/-- An entry that is in the table is still there, unchanged, after any call. -/
theorem step_keeps_entry (s : World) (op : Op) (n : NodeID) (e : timeMachineConnection)
    (h : mapGet s.cm.tmcMap n = some e) : mapGet (step s op).cm.tmcMap n = some e := by
  cases op with
  | getJobStore k => simpa [step, GetJobStore_world] using h
  | checkHealth k => simpa [step, CheckHealth_world] using h
  | add serverID address dial =>
    simp only [step]
    cases hg : mapGet s.cm.tmcMap serverID with
    | some tmc => rw [Add_of_registered dial s serverID address tmc hg]; exact h
    | none =>
      have hne : n ≠ serverID := by
        intro heq
        rw [heq, hg] at h
        cases h
      cases hd : dial address with
      | err er => rw [Add_of_err dial s serverID address er hg hd]; exact h
      | ok c =>
        rw [Add_of_ok dial s serverID address c hg hd]
        simpa [mapGet_mapSet_other _ _ _ _ hne] using h

theorem run_keeps_entry (ops : List Op) (s : World) (n : NodeID) (e : timeMachineConnection)
    (h : mapGet s.cm.tmcMap n = some e) : mapGet (run s ops).cm.tmcMap n = some e := by
  induction ops generalizing s with
  | nil => exact h
  | cons op t ih => exact ih (step s op) (step_keeps_entry s op n e h)

theorem run_append (s : World) (ops ops' : List Op) :
    run s (ops ++ ops') = run (run s ops) ops' := by
  simp [run, List.foldl_append]

theorem DialInv_fresh (rpcTimeout : Int) (st : ClientConn → ConnState) :
    DialInv (fresh rpcTimeout st) := by
  intro n
  simp [fresh, successfulDials, CreateConnectionManager, mapGet]

theorem successfulDials_cons_err (n k : NodeID) (a : String) (er : Error) (log : List DialEvent) :
    successfulDials n ({ nodeID := k, addr := a, result := DialResult.err er } :: log) =
      successfulDials n log := by
  simp [successfulDials, DialEvent.succeededFor]

theorem successfulDials_cons_ok (n k : NodeID) (a : String) (c : ClientConn)
    (log : List DialEvent) :
    successfulDials n ({ nodeID := k, addr := a, result := DialResult.ok c } :: log) =
      successfulDials n log + (if k = n then 1 else 0) := by
  by_cases h : k = n <;> simp [successfulDials, DialEvent.succeededFor, h]

theorem step_DialInv (s : World) (op : Op) (h : DialInv s) : DialInv (step s op) := by
  cases op with
  | getJobStore k => simpa [step, GetJobStore_world] using h
  | checkHealth k => simpa [step, CheckHealth_world] using h
  | add serverID address dial =>
    simp only [step]
    cases hg : mapGet s.cm.tmcMap serverID with
    | some tmc => rw [Add_of_registered dial s serverID address tmc hg]; exact h
    | none =>
      cases hd : dial address with
      | err er =>
        rw [Add_of_err dial s serverID address er hg hd]
        intro n
        simpa [successfulDials_cons_err] using h n
      | ok c =>
        rw [Add_of_ok dial s serverID address c hg hd]
        intro n
        by_cases hn : serverID = n
        · subst hn
          have h0 := (h serverID).2 hg
          simp [successfulDials_cons_ok, h0, mapGet_mapSet_same]
        · have hn' : n ≠ serverID := fun x => hn x.symm
          simpa [successfulDials_cons_ok, hn, mapGet_mapSet_other _ _ _ _ hn'] using h n

theorem run_DialInv (ops : List Op) (s : World) (h : DialInv s) : DialInv (run s ops) := by
  induction ops generalizing s with
  | nil => exact h
  | cons op t ih => exact ih (step s op) (step_DialInv s op h)

/-! ## The loop of Close -/

theorem closeLoop_dials (l : TmcMap) (g : Grpc) :
    (l.foldl (fun g p => g.closeConn p.2.grpcConn) g).dials = g.dials := by
  induction l generalizing g with
  | nil => rfl
  | cons p t ih => simpa [Grpc.closeConn] using ih (g.closeConn p.2.grpcConn)

theorem closeLoop_stays_shutdown (l : TmcMap) (g : Grpc) (c : ClientConn)
    (h : g.state c = ConnState.Shutdown) :
    (l.foldl (fun g p => g.closeConn p.2.grpcConn) g).state c = ConnState.Shutdown := by
  induction l generalizing g with
  | nil => exact h
  | cons p t ih =>
    apply ih (g.closeConn p.2.grpcConn)
    by_cases hc : c = p.2.grpcConn
    · simp [Grpc.closeConn, hc]
    · simp [Grpc.closeConn, Function.update_noteq hc, h]

theorem closeLoop_closes (l : TmcMap) (g : Grpc) (p : NodeID × timeMachineConnection)
    (hp : p ∈ l) :
    (l.foldl (fun g p => g.closeConn p.2.grpcConn) g).state p.2.grpcConn =
      ConnState.Shutdown := by
  induction l generalizing g with
  | nil => cases hp
  | cons q t ih =>
    rcases List.mem_cons.mp hp with h | h
    · subst h
      exact closeLoop_stays_shutdown t _ _ (by simp [Grpc.closeConn])
    · exact ih _ h

theorem closeLoop_other (l : TmcMap) (g : Grpc) (c : ClientConn)
    (h : ∀ p ∈ l, p.2.grpcConn ≠ c) :
    (l.foldl (fun g p => g.closeConn p.2.grpcConn) g).state c = g.state c := by
  induction l generalizing g with
  | nil => rfl
  | cons q t ih =>
    have hq : c ≠ q.2.grpcConn := fun x => h q (List.mem_cons_self _ _) x.symm
    rw [List.foldl_cons, ih _ (fun p hp => h p (List.mem_cons_of_mem _ hp))]
    simp [Grpc.closeConn, Function.update_noteq hq]

/-- The loop of `Close` does not depend on the order in which the map is
ranged over. -/
theorem closeLoop_perm (l l' : TmcMap) (g : Grpc) (h : l.Perm l') (c : ClientConn) :
    (l.foldl (fun g p => g.closeConn p.2.grpcConn) g).state c =
      (l'.foldl (fun g p => g.closeConn p.2.grpcConn) g).state c := by
  by_cases hc : ∃ p ∈ l, p.2.grpcConn = c
  · obtain ⟨p, hp, rfl⟩ := hc
    rw [closeLoop_closes l g p hp, closeLoop_closes l' g p (h.mem_iff.mp hp)]
  · have h1 : ∀ p ∈ l, p.2.grpcConn ≠ c := fun p hp heq => hc ⟨p, hp, heq⟩
    have h2 : ∀ p ∈ l', p.2.grpcConn ≠ c := fun p hp heq => hc ⟨p, h.mem_iff.mpr hp, heq⟩
    rw [closeLoop_other l g c h1, closeLoop_other l' g c h2]

/-! ## Add -/

/-- C1: `Add` on a node that already has an entry returns nil and leaves the
whole world as it was, whatever the address and whatever the dialer would have
answered: no dial is recorded, and the table, its entries and the channel
states are the same. -/
theorem Add_registered_noop (dial : Dialer) (s : World) (serverID address : String)
    (h : (mapGet s.cm.tmcMap serverID).isSome = true) :
    Add dial s serverID address = (none, s) := by
  cases hg : mapGet s.cm.tmcMap serverID with
  | none => simp [hg] at h
  | some tmc => simp [Add, hg]

/-- C3: when the node has no entry and the dial fails with `e`, `Add` returns
`e`, the manager (table and timeout) and the channel states are unchanged, the
one dial made is recorded, and a later `Add` for the same node dials again. -/
theorem Add_dial_failure (dial : Dialer) (s : World) (serverID address : String) (e : Error)
    (habs : mapGet s.cm.tmcMap serverID = none) (hd : dial address = DialResult.err e) :
    (Add dial s serverID address).1 = some e ∧
    (Add dial s serverID address).2.cm = s.cm ∧
    (∀ n, mapGet (Add dial s serverID address).2.cm.tmcMap n = mapGet s.cm.tmcMap n) ∧
    (Add dial s serverID address).2.grpc.state = s.grpc.state ∧
    (Add dial s serverID address).2.grpc.dials =
      { nodeID := serverID, addr := address, result := DialResult.err e } :: s.grpc.dials ∧
    ∀ (dial' : Dialer) (address' : String),
      (Add dial' (Add dial s serverID address).2 serverID address').2.grpc.dials =
        { nodeID := serverID, addr := address', result := dial' address' } ::
          (Add dial s serverID address).2.grpc.dials := by
  rw [Add_of_err dial s serverID address e habs hd]
  refine ⟨rfl, rfl, fun _ => rfl, rfl, rfl, ?_⟩
  intro dial' address'
  simp only [Add, habs, connect]
  cases dial' address' <;> rfl

/-- C4: when the node has no entry and the dial succeeds with channel `c`,
`Add` returns nil, the table maps the node to the entry made of the address,
`c` and the client built from `c` with the manager's timeout, `GetJobStore`
returns that client with a nil error, and every other node reads as before. -/
theorem Add_dial_success (dial : Dialer) (s : World) (serverID address : String)
    (c : ClientConn)
    (habs : mapGet s.cm.tmcMap serverID = none) (hd : dial address = DialResult.ok c) :
    (Add dial s serverID address).1 = none ∧
    mapGet (Add dial s serverID address).2.cm.tmcMap serverID =
      some { address := address, grpcConn := c,
             jobStore := CreateJobStoreClient c s.cm.rpcTimeout } ∧
    (GetJobStore (Add dial s serverID address).2 serverID).1 =
      (some (CreateJobStoreClient c s.cm.rpcTimeout), none) ∧
    (Add dial s serverID address).2.cm.rpcTimeout = s.cm.rpcTimeout ∧
    ∀ n : NodeID, n ≠ serverID →
      mapGet (Add dial s serverID address).2.cm.tmcMap n = mapGet s.cm.tmcMap n := by
  rw [Add_of_ok dial s serverID address c habs hd]
  refine ⟨rfl, mapGet_mapSet_same _ _ _, ?_, rfl, ?_⟩
  · simp [GetJobStore, mapGet_mapSet_same]
  · intro n hn
    exact mapGet_mapSet_other _ _ _ _ hn

/-! ## The queries -/

/-- C5: `GetJobStore` returns the cached client and a nil error when the node
has an entry, and a nil client with `ErrNodeNotPresent` ("node not present")
when it has none, so it succeeds exactly for registered nodes; on a manager
just returned by `CreateConnectionManager` it fails for every node. -/
theorem GetJobStore_spec (s : World) (nodeID : NodeID) :
    (∀ tmc, mapGet s.cm.tmcMap nodeID = some tmc →
      (GetJobStore s nodeID).1 = (some tmc.jobStore, none)) ∧
    (mapGet s.cm.tmcMap nodeID = none →
      (GetJobStore s nodeID).1 = (none, some ErrNodeNotPresent)) ∧
    ((GetJobStore s nodeID).1.2 = none ↔ (mapGet s.cm.tmcMap nodeID).isSome = true) ∧
    ErrNodeNotPresent = "node not present" ∧
    ∀ (rpcTimeout : Int) (g : Grpc),
      (GetJobStore { cm := CreateConnectionManager rpcTimeout, grpc := g } nodeID).1 =
        (none, some ErrNodeNotPresent) := by
  refine ⟨?_, ?_, ?_, rfl, fun _ _ => rfl⟩
  · intro tmc h
    simp [GetJobStore, h]
  · intro h
    simp [GetJobStore, h]
  · cases h : mapGet s.cm.tmcMap nodeID <;> simp [GetJobStore, h]

/-- C6: `CheckHealth` returns true exactly when the node has an entry whose
channel is in state `Ready` or `Idle`; for a channel in state `Connecting`,
`TransientFailure` or `Shutdown`, and for a node without an entry, it returns
false. -/
theorem CheckHealth_spec (s : World) (nodeId : NodeID) :
    ((CheckHealth s nodeId).1 = true ↔
      ∃ tmc, mapGet s.cm.tmcMap nodeId = some tmc ∧
        (s.grpc.state tmc.grpcConn = ConnState.Ready ∨
         s.grpc.state tmc.grpcConn = ConnState.Idle)) ∧
    (∀ tmc, mapGet s.cm.tmcMap nodeId = some tmc →
      (s.grpc.state tmc.grpcConn = ConnState.Connecting ∨
       s.grpc.state tmc.grpcConn = ConnState.TransientFailure ∨
       s.grpc.state tmc.grpcConn = ConnState.Shutdown) →
      (CheckHealth s nodeId).1 = false) ∧
    (mapGet s.cm.tmcMap nodeId = none → (CheckHealth s nodeId).1 = false) := by
  refine ⟨?_, ?_, ?_⟩
  · cases h : mapGet s.cm.tmcMap nodeId with
    | none => simp [CheckHealth, h]
    | some tmc =>
      cases hs : s.grpc.state tmc.grpcConn <;> simp [CheckHealth, h, hs]
  · intro tmc h hst
    rcases hst with hs | hs | hs <;> simp [CheckHealth, h, hs]
  · intro h
    simp [CheckHealth, h]

/-! ## One channel per node -/

/-- C2: in every run of `Add`, `GetJobStore` and `CheckHealth` calls on a
manager just returned by `CreateConnectionManager`, whatever each dial
answers, a node has at most one successful dial on record, and an entry that
is in the table at some point of the run is the entry of that node at every
later point (same address, channel and client). -/
theorem one_channel_per_node (rpcTimeout : Int) (st : ClientConn → ConnState)
    (ops ops' : List Op) (n : NodeID) :
    successfulDials n (run (fresh rpcTimeout st) ops).grpc.dials ≤ 1 ∧
    ∀ e : timeMachineConnection,
      mapGet (run (fresh rpcTimeout st) ops).cm.tmcMap n = some e →
      mapGet (run (fresh rpcTimeout st) (ops ++ ops')).cm.tmcMap n = some e := by
  refine ⟨(run_DialInv ops _ (DialInv_fresh rpcTimeout st) n).1, ?_⟩
  intro e h
  rw [run_append]
  exact run_keeps_entry ops' _ n e h

/-! ## Close -/

/-- C7: after `Close`, the channel of every entry of the table is in state
`Shutdown`, and `CheckHealth` returns false for every node, registered or not. -/
theorem Close_no_node_healthy (s : World) :
    (∀ (n : NodeID) (tmc : timeMachineConnection), (n, tmc) ∈ s.cm.tmcMap →
      (Close s).grpc.state tmc.grpcConn = ConnState.Shutdown) ∧
    ∀ nodeId : NodeID, (CheckHealth (Close s) nodeId).1 = false := by
  have hall : ∀ (n : NodeID) (tmc : timeMachineConnection), (n, tmc) ∈ s.cm.tmcMap →
      (Close s).grpc.state tmc.grpcConn = ConnState.Shutdown := by
    intro n tmc hmem
    exact closeLoop_closes s.cm.tmcMap s.grpc (n, tmc) hmem
  refine ⟨hall, ?_⟩
  intro nodeId
  cases hg : mapGet s.cm.tmcMap nodeId with
  | none =>
    have hg' : mapGet (Close s).cm.tmcMap nodeId = none := hg
    simp [CheckHealth, hg']
  | some tmc =>
    have hg' : mapGet (Close s).cm.tmcMap nodeId = some tmc := hg
    have hs := hall nodeId tmc (mapGet_mem _ _ _ hg)
    simp [CheckHealth, hg', hs]

/-- C8, as the claim states it, fails: in the manager that registered `n1` and
`n2`, after `Close` the table still holds the entry of `n1`, `GetJobStore`
still returns its client with a nil error, and an `Add` for `n1` returns nil
without a dial although the dialer would have answered. -/
theorem Close_releases_entries_fails :
    mapGet (Close exampleWorld).cm.tmcMap "n1" =
      some { address := "addr:1", grpcConn := 1, jobStore := CreateJobStoreClient 1 5 } ∧
    (GetJobStore (Close exampleWorld) "n1").1 = (some (CreateJobStoreClient 1 5), none) ∧
    (GetJobStore (Close exampleWorld) "n1").1 ≠ (none, some ErrNodeNotPresent) ∧
    (Add otherDial (Close exampleWorld) "n1" "addr:1").1 = none ∧
    (Add otherDial (Close exampleWorld) "n1" "addr:1").2.grpc.dials =
      exampleWorld.grpc.dials := by
  decide

/-- C8, amended: `Close` leaves the manager, and so the table and every entry,
as it was and makes no dial; `GetJobStore` returns after the `Close` what it
returned before it, and an `Add` for a node registered before the `Close`
returns nil and changes nothing, so it does not dial. -/
theorem Close_keeps_entries (s : World) :
    (Close s).cm = s.cm ∧
    (Close s).grpc.dials = s.grpc.dials ∧
    (∀ nodeID : NodeID, (GetJobStore (Close s) nodeID).1 = (GetJobStore s nodeID).1) ∧
    ∀ (dial : Dialer) (serverID address : String),
      (mapGet s.cm.tmcMap serverID).isSome = true →
      Add dial (Close s) serverID address = (none, Close s) := by
  refine ⟨rfl, closeLoop_dials _ _, ?_, ?_⟩
  · intro nodeID
    have hcm : (Close s).cm.tmcMap = s.cm.tmcMap := rfl
    simp only [GetJobStore, hcm]
    cases mapGet s.cm.tmcMap nodeID <;> rfl
  · intro dial serverID address h
    have hcm : (Close s).cm.tmcMap = s.cm.tmcMap := rfl
    cases hg : mapGet s.cm.tmcMap serverID with
    | none => simp [hg] at h
    | some tmc => exact Add_of_registered dial (Close s) serverID address tmc (hcm ▸ hg)

/-! ## The queries are reads -/

/-- C9: `GetJobStore` and `CheckHealth` leave the world as it was (no dial is
recorded; table, entries and channel states are the same) for every node,
registered or not; two worlds with the same table and the same channel states
give the same results, and so does a repeated call. -/
theorem queries_are_reads (s : World) (nodeID : NodeID) :
    (GetJobStore s nodeID).2 = s ∧
    (CheckHealth s nodeID).2 = s ∧
    (∀ s' : World, s'.cm.tmcMap = s.cm.tmcMap → s'.grpc.state = s.grpc.state →
      (GetJobStore s' nodeID).1 = (GetJobStore s nodeID).1 ∧
      (CheckHealth s' nodeID).1 = (CheckHealth s nodeID).1) ∧
    (GetJobStore (GetJobStore s nodeID).2 nodeID).1 = (GetJobStore s nodeID).1 ∧
    (CheckHealth (CheckHealth s nodeID).2 nodeID).1 = (CheckHealth s nodeID).1 := by
  refine ⟨GetJobStore_world s nodeID, CheckHealth_world s nodeID, ?_, ?_, ?_⟩
  · intro s' hm hst
    constructor
    · simp only [GetJobStore, hm]
      cases mapGet s.cm.tmcMap nodeID <;> rfl
    · simp only [CheckHealth, hm, hst]
      cases mapGet s.cm.tmcMap nodeID with
      | none => rfl
      | some tmc => dsimp only; cases s.grpc.state tmc.grpcConn <;> rfl
  · rw [GetJobStore_world]
  · rw [CheckHealth_world]

/-! ## The theorems at the example cluster -/

/-- `Add_registered_noop` at `exampleWorld`: `n1` is registered, and an `Add`
for it with another address and a dialer that would succeed changes nothing. -/
theorem Add_registered_noop_witness :
    (mapGet exampleWorld.cm.tmcMap "n1").isSome = true ∧
    Add otherDial exampleWorld "n1" "addr:9" = (none, exampleWorld) :=
  ⟨by decide, Add_registered_noop otherDial exampleWorld "n1" "addr:9" (by decide)⟩

/-- `one_channel_per_node` at the example run: `n1` has an entry after the
first two calls and keeps it through the four that follow. -/
theorem one_channel_per_node_witness :
    mapGet (run (fresh 5 exampleStates) exampleOps).cm.tmcMap "n1" =
      some { address := "addr:1", grpcConn := 1, jobStore := CreateJobStoreClient 1 5 } ∧
    successfulDials "n1" (run (fresh 5 exampleStates) exampleOps).grpc.dials ≤ 1 ∧
    mapGet (run (fresh 5 exampleStates) (exampleOps ++ exampleOps')).cm.tmcMap "n1" =
      some { address := "addr:1", grpcConn := 1, jobStore := CreateJobStoreClient 1 5 } :=
  ⟨by decide,
   (one_channel_per_node 5 exampleStates exampleOps exampleOps' "n1").1,
   (one_channel_per_node 5 exampleStates exampleOps exampleOps' "n1").2
      { address := "addr:1", grpcConn := 1, jobStore := CreateJobStoreClient 1 5 } (by decide)⟩

/-- `Add_dial_failure` at `exampleWorld`: `n3` has no entry and its address is
refused. -/
theorem Add_dial_failure_witness :
    mapGet exampleWorld.cm.tmcMap "n3" = none ∧
    exampleDial "addr:3" = DialResult.err "connection refused" ∧
    (Add exampleDial exampleWorld "n3" "addr:3").1 = some "connection refused" ∧
    (Add exampleDial exampleWorld "n3" "addr:3").2.cm = exampleWorld.cm :=
  ⟨by decide, by decide,
   (Add_dial_failure exampleDial exampleWorld "n3" "addr:3" "connection refused"
      (by decide) (by decide)).1,
   (Add_dial_failure exampleDial exampleWorld "n3" "addr:3" "connection refused"
      (by decide) (by decide)).2.1⟩

/-- `Add_dial_success` at `exampleWorld`: `n3` has no entry and the dial
answers with channel 7. -/
theorem Add_dial_success_witness :
    mapGet exampleWorld.cm.tmcMap "n3" = none ∧
    otherDial "addr:3" = DialResult.ok 7 ∧
    (Add otherDial exampleWorld "n3" "addr:3").1 = none ∧
    mapGet (Add otherDial exampleWorld "n3" "addr:3").2.cm.tmcMap "n3" =
      some { address := "addr:3", grpcConn := 7,
             jobStore := CreateJobStoreClient 7 exampleWorld.cm.rpcTimeout } :=
  ⟨by decide, by decide,
   (Add_dial_success otherDial exampleWorld "n3" "addr:3" 7 (by decide) (by decide)).1,
   (Add_dial_success otherDial exampleWorld "n3" "addr:3" 7 (by decide) (by decide)).2.1⟩

/-- `GetJobStore_spec` at `exampleWorld`: `n1` is registered and its client is
returned; `n3` is not and the error is returned. -/
theorem GetJobStore_spec_witness :
    mapGet exampleWorld.cm.tmcMap "n1" =
      some { address := "addr:1", grpcConn := 1, jobStore := CreateJobStoreClient 1 5 } ∧
    (GetJobStore exampleWorld "n1").1 = (some (CreateJobStoreClient 1 5), none) ∧
    mapGet exampleWorld.cm.tmcMap "n3" = none ∧
    (GetJobStore exampleWorld "n3").1 = (none, some ErrNodeNotPresent) :=
  ⟨by decide,
   (GetJobStore_spec exampleWorld "n1").1
      { address := "addr:1", grpcConn := 1, jobStore := CreateJobStoreClient 1 5 } (by decide),
   by decide,
   (GetJobStore_spec exampleWorld "n3").2.1 (by decide)⟩

/-- `CheckHealth_spec` at `exampleWorld`: the channel of `n1` is ready, so `n1`
is healthy; the channel of `n2` is connecting, so `n2` is not. -/
theorem CheckHealth_spec_witness :
    (CheckHealth exampleWorld "n1").1 = true ∧ (CheckHealth exampleWorld "n2").1 = false :=
  ⟨(CheckHealth_spec exampleWorld "n1").1.mpr
      ⟨{ address := "addr:1", grpcConn := 1, jobStore := CreateJobStoreClient 1 5 },
        by decide, Or.inl (by decide)⟩,
   (CheckHealth_spec exampleWorld "n2").2.1
      { address := "addr:2", grpcConn := 2, jobStore := CreateJobStoreClient 2 5 }
      (by decide) (Or.inl (by decide))⟩

/-- `Close_no_node_healthy` at `exampleWorld`: `n1` was healthy, its channel is
shut down by `Close` and it is not healthy afterwards. -/
theorem Close_no_node_healthy_witness :
    (CheckHealth exampleWorld "n1").1 = true ∧
    (Close exampleWorld).grpc.state 1 = ConnState.Shutdown ∧
    (CheckHealth (Close exampleWorld) "n1").1 = false :=
  ⟨by decide,
   (Close_no_node_healthy exampleWorld).1 "n1"
      { address := "addr:1", grpcConn := 1, jobStore := CreateJobStoreClient 1 5 } (by decide),
   (Close_no_node_healthy exampleWorld).2 "n1"⟩

/-- `Close_keeps_entries` at `exampleWorld`: `n2` is registered, and after
`Close` an `Add` for it returns nil and changes nothing. -/
theorem Close_keeps_entries_witness :
    (mapGet exampleWorld.cm.tmcMap "n2").isSome = true ∧
    Add otherDial (Close exampleWorld) "n2" "addr:2" = (none, Close exampleWorld) :=
  ⟨by decide, (Close_keeps_entries exampleWorld).2.2.2 otherDial "n2" "addr:2" (by decide)⟩

/-- `queries_are_reads` at `exampleWorld` and the world of the example run,
which have the same table and channel states. -/
theorem queries_are_reads_witness :
    (GetJobStore (run (fresh 5 exampleStates) exampleOps) "n1").1 =
      (GetJobStore exampleWorld "n1").1 ∧
    (CheckHealth (run (fresh 5 exampleStates) exampleOps) "n1").1 =
      (CheckHealth exampleWorld "n1").1 :=
  (queries_are_reads exampleWorld "n1").2.2.1 (run (fresh 5 exampleStates) exampleOps)
    (by decide) rfl

end TimeMachine
